import Mathlib

/-!
Shallow embedding of `businessFinder.py`.

The script finds businesses that have a phone number but no website around a
ZIP code, by an expanding-radius grid search against a places API.  Network
calls (`requests.get` for geocoding, nearby search and place details, and the
CSV collaborators) are modelled as oracle functions passed explicitly; a raised
exception from a request is an `Except.error`.  Python strings are Lean
`String`s, Python `None`-able values are `Option`s, and Python truthiness of a
string (non-empty) and of a float (non-zero) is made explicit.  Machine floats
of the source are embedded as rationals, with the cosine factor of the
longitude conversion passed in as a parameter `cosLat`.
-/

/-- Python split on a comma, acting on the character list: split at every comma, keeping
empty pieces, so the empty string maps to one empty piece and a lone comma to
two, as in Python. -/
def splitCommaChars : List Char → List (List Char)
  | [] => [[]]
  | c :: cs =>
    match splitCommaChars cs with
    | [] => [[c]]
    | r :: rs => if c = ',' then [] :: r :: rs else (c :: r) :: rs

/-- Python split on a comma (line 117 of the source). -/
def pySplitComma (s : String) : List String :=
  (splitCommaChars s.data).map (fun l => String.mk l)

/-- Python strip: drop whitespace from both ends. -/
def pyStrip (s : String) : String :=
  String.mk (((s.data.dropWhile Char.isWhitespace).reverse.dropWhile Char.isWhitespace).reverse)

/-- Python comma-space join (lines 73 and 119 of the source). -/
def joinCommaSpace : List String → String
  | [] => ""
  | [t] => t
  | t :: ts => t ++ (", ") ++ joinCommaSpace ts

/-- Python truthiness of an optional string: `None` and `""` are falsy. -/
def truthyStr : Option String → Bool
  | none => false
  | some s => !s.data.isEmpty

/-- Python truthiness of an optional float: `None` and `0.0` are falsy
(the `if lat and lng:` check of line 141). -/
def truthyNum : Option ℚ → Bool
  | none => false
  | some v => decide (v ≠ 0)

/-- One item of a nearby-search `results` array, with the fields the source
reads (`name`, `place_id`, `vicinity`, `types`); each may be absent except
`types`, which line 73 joins without a `None` guard. -/
structure Place where
  name : Option String
  place_id : Option String
  vicinity : Option String
  types : List String
  deriving DecidableEq

/-- The dict built at lines 69–74 for each place. -/
structure Business where
  name : Option String
  place_id : Option String
  address : Option String
  types : String
  deriving DecidableEq

/-- The dict returned by `get_business_details` (lines 93–96). -/
structure Detail where
  phone : Option String
  website : Option String
  deriving DecidableEq

/-- A row appended to `results` at lines 121–126. -/
structure Record where
  Name : Option String
  Address : Option String
  Phone : Option String
  Types : String
  deriving DecidableEq

/-- The decoded JSON of one nearby-search response: the results array and the
next_page_token read at lines 68 and 77, each possibly absent. -/
structure SearchResponse where
  results : Option (List Place)
  next_page_token : Option String
  deriving DecidableEq

/-- `geometry.location` of a geocoding result (line 26). -/
structure LatLng where
  lat : ℚ
  lng : ℚ
  deriving DecidableEq

/-- One entry of the geocoding `results` array. -/
structure GeoResult where
  location : LatLng
  deriving DecidableEq

/-- `get_lat_lng` (lines 19–31), given the decoded `results` array of the
geocoding response: the location of the first result, else `(None, None)`. -/
def get_lat_lng (results : List GeoResult) : Option ℚ × Option ℚ :=
  match results with
  | [] => (none, none)
  | r :: _ => (some r.location.lat, some r.location.lng)

/-- The integer offsets of Python `range(-num_points // 2, num_points // 2 + 1)`
(lines 37–38), encoded as `k - (num_points + 1) / 2` for `k < num_points + 1`,
which agrees with Python floor division for every `num_points`. -/
def gridOffsets (num_points : ℕ) : List ℤ :=
  (List.range (num_points + 1)).map (fun (k : ℕ) => (k : ℤ) - ((num_points + 1) / 2 : ℕ))

/-- `get_grid_points` (lines 34–42).  `cosLat` stands for
`math.cos(center_lat * math.pi / 180)`. -/
def get_grid_points (cosLat center_lat center_lng radius : ℚ) (num_points : ℕ) :
    List (ℚ × ℚ) :=
  let offset : ℚ := radius / ((num_points / 2 : ℕ) : ℚ)
  (gridOffsets num_points).flatMap (fun (i : ℤ) =>
    (gridOffsets num_points).map (fun (j : ℤ) =>
      (center_lat + ((i : ℚ) * offset) / 111320,
       center_lng + ((j : ℚ) * offset) / (111320 * cosLat))))

/-- Lines 69–75: the dict appended to `businesses` for one result item.  No
filtering happens here: every item is appended, whatever its `place_id`. -/
def placeToBusiness (place : Place) : Business :=
  ⟨place.name, place.place_id, place.vicinity, joinCommaSpace place.types⟩

/-- The `while True` pagination loop of lines 55–79 for one grid point.
`search` is the nearby-search request; an `Except.error` is a raised
`requests` or JSON-decoding exception, which the source does not catch.
`fuel` bounds the number of pages followed. -/
def fetchPoint (search : ℚ × ℚ → Option String → Except Unit SearchResponse)
    (pt : ℚ × ℚ) : ℕ → Option String → List Business → Except Unit (List Business)
  | 0, _, businesses => Except.ok businesses
  | fuel + 1, next_page_token, businesses =>
    match search pt next_page_token with
    | Except.error e => Except.error e
    | Except.ok data =>
      let businesses2 := businesses ++ (data.results.getD []).map placeToBusiness
      if truthyStr data.next_page_token then
        fetchPoint search pt fuel data.next_page_token businesses2
      else Except.ok businesses2

/-- The `for idx, (lat, lng) in enumerate(grid_points)` loop of lines 51–82,
threading the shared `businesses` accumulator; an uncaught exception at any
point aborts the whole loop. -/
def searchPoints (search : ℚ × ℚ → Option String → Except Unit SearchResponse)
    (fuel : ℕ) : List (ℚ × ℚ) → List Business → Except Unit (List Business)
  | [], businesses => Except.ok businesses
  | pt :: rest, businesses =>
    match fetchPoint search pt fuel none businesses with
    | Except.error e => Except.error e
    | Except.ok businesses2 => searchPoints search fuel rest businesses2

/-- One assignment `d[k] = v` of a Python dict represented as an ordered
association list: an existing key keeps its position and takes the new value,
a new key is appended. -/
def pyDictInsert (d : List (Option String × Business)) (k : Option String)
    (v : Business) : List (Option String × Business) :=
  if d.any (fun p => decide (p.1 = k)) then
    d.map (fun p => if p.1 = k then (k, v) else p)
  else d ++ [(k, v)]

/-- The dict comprehension of line 83, keyed by place_id with the business as
value, with the Python insertion-order, last-value-wins semantics. -/
def pyDictOf (businesses : List Business) : List (Option String × Business) :=
  businesses.foldl (fun d b => pyDictInsert d b.place_id b) []

/-- Line 83: `.values()` of the dict comprehension. -/
def uniqueBusinesses (businesses : List Business) : List Business :=
  (pyDictOf businesses).map (fun p => p.2)

/-- `get_businesses_grid_search` (lines 45–85): run the pagination loop over
every grid point (always `num_points = 10`, the default of line 34), then
deduplicate by `place_id`. -/
def get_businesses_grid_search
    (search : ℚ × ℚ → Option String → Except Unit SearchResponse)
    (cosLat center_lat center_lng radius : ℚ) (fuel : ℕ) :
    Except Unit (List Business) :=
  match searchPoints search fuel
      (get_grid_points cosLat center_lat center_lng radius 10) [] with
  | Except.error e => Except.error e
  | Except.ok businesses => Except.ok (uniqueBusinesses businesses)

/-- `get_business_details` (lines 88–96), with the details request modelled by
the oracle `fetch` from the `place_id` sent. -/
def get_business_details (fetch : Option String → Detail)
    (place_id : Option String) : Detail :=
  fetch place_id

/-- Line 109. -/
def unwanted_types : List String := [("point_of_interest"), ("establishment")]

/-- Lines 117–119: split the stored types string on a bare comma, keep the
pieces not (exactly) in `unwanted_types`, strip each survivor, re-join with a
comma and a space. -/
def filtered_types_string (types : String) : String :=
  joinCommaSpace (((pySplitComma types).filter
    (fun t => decide (t ∉ unwanted_types))).map pyStrip)

/-- The row lines 121–126 build for a qualifying business. -/
def recordOf (fetch : Option String → Detail) (b : Business) : Record :=
  ⟨b.name, b.address, (get_business_details fetch b.place_id).phone,
    filtered_types_string b.types⟩

/-- The qualification test of line 120: truthy phone and falsy website. -/
def qualifies (fetch : Option String → Detail) (b : Business) : Bool :=
  truthyStr (get_business_details fetch b.place_id).phone &&
    !truthyStr (get_business_details fetch b.place_id).website

/-- The `for` loop of `filter_businesses` (lines 114–129), carrying the
`results` accumulator and, as the second component, the list of businesses for
which a detail lookup was issued (the network effect of the function).  The loop
breaks as soon as `len(results) >= n` after handling a non-skipped business. -/
def filterGo (fetch : Option String → Detail) (previous_stores : List (Option String))
    (n : ℕ) : List Business → List Record → List Business → List Record × List Business
  | [], results, looked => (results, looked)
  | b :: rest, results, looked =>
    if b.name ∈ previous_stores then filterGo fetch previous_stores n rest results looked
    else
      let details := get_business_details fetch b.place_id
      let looked2 := looked ++ [b]
      let results2 :=
        if truthyStr details.phone && !truthyStr details.website then
          results ++ [⟨b.name, b.address, details.phone, filtered_types_string b.types⟩]
        else results
      if n ≤ results2.length then (results2, looked2)
      else filterGo fetch previous_stores n rest results2 looked2

/-- `filter_businesses` (lines 112–130).  First component: the returned
`results`; second component: the businesses whose details were fetched. -/
def filter_businesses (businesses : List Business) (fetch : Option String → Detail)
    (previous_stores : List (Option String)) (n : ℕ) : List Record × List Business :=
  filterGo fetch previous_stores n businesses [] []

/-- The mutable state of the expansion loop of `main` (lines 142–166):
`found_businesses`, `previous_stores` and `max_radius`. -/
structure MainState where
  found : List Record
  prev : List (Option String)
  radius : ℤ
  deriving DecidableEq

/-- One iteration of the `while` loop of lines 151–166.  `searchAt` stands for
`get_businesses_grid_search` at the given center and radius. -/
def mainStep (searchAt : ℚ × ℚ → ℤ → List Business) (coord : ℚ × ℚ)
    (fetch : Option String → Detail) (n : ℕ) (s : MainState) : MainState :=
  let max_radius := s.radius + 500
  let businesses := searchAt coord max_radius
  let filtered := (filter_businesses businesses fetch s.prev (n - s.found.length)).1
  ⟨s.found ++ filtered, s.prev ++ filtered.map (fun r => r.Name), max_radius⟩

/-- The `while len(found_businesses) < args.n` loop of lines 151–166, bounded
by `fuel` iterations; `none` means the fuel ran out with the target unmet. -/
def mainLoop (searchAt : ℚ × ℚ → ℤ → List Business) (coord : ℚ × ℚ)
    (fetch : Option String → Detail) (n : ℕ) : ℕ → MainState → Option MainState
  | 0, s => if s.found.length < n then none else some s
  | fuel + 1, s =>
    if s.found.length < n then
      mainLoop searchAt coord fetch n fuel (mainStep searchAt coord fetch n s)
    else some s

/-- `main` (lines 133–172) from the geocoding response onward: run the
expansion loop and emit the saved rows only when both coordinates are truthy
(line 141); `none` means no search ran and no file was written. -/
def main_run (geo_results : List GeoResult) (searchAt : ℚ × ℚ → ℤ → List Business)
    (fetch : Option String → Detail) (previous_stores : List (Option String))
    (n : ℕ) (minRadius : ℤ) (fuel : ℕ) : Option (List Record) :=
  let lat := (get_lat_lng geo_results).1
  let lng := (get_lat_lng geo_results).2
  if truthyNum lat && truthyNum lng then
    (mainLoop searchAt (lat.getD 0, lng.getD 0) fetch n fuel
      ⟨[], previous_stores, minRadius⟩).map (fun s => s.found)
  else none

/-- The check of line 115: the business was not seen before. -/
def notSeen (prev : List (Option String)) (b : Business) : Bool :=
  decide (b.name ∉ prev)

/-- Python `d[k]` as the source would observe it: the value of the unique
entry with key `k`, if any. -/
def pyLookup (d : List (Option String × Business)) (k : Option String) : Option Business :=
  (d.find? (fun p => decide (p.1 = k))).map (fun p => p.2)

/-- The dict built from an initial dict `d` by the comprehension of line 83. -/
def pyDictFold (d : List (Option String × Business)) (l : List Business) :
    List (Option String × Business) :=
  l.foldl (fun d b => pyDictInsert d b.place_id b) d

/-- A detail oracle answering every lookup with a phone and no website. -/
def fetchQualifying : Option String → Detail := fun _ => ⟨some ("555-0100"), none⟩

def bizA : Business := ⟨some ("A"), some ("p"), some ("addr"), ("store")⟩

def bizB : Business := ⟨some ("B"), some ("p"), some ("addr2"), ("store")⟩

def recA : Record := ⟨some ("A"), some ("addr"), some ("555-0100"), ("store")⟩

def placeNoId : Place := ⟨some ("X"), none, some ("A St"), [("a")]⟩

/-- A search oracle whose every result item lacks a `place_id`. -/
def missingIdSearch : ℚ × ℚ → Option String → Except Unit SearchResponse :=
  fun _ _ => Except.ok ⟨some [placeNoId], none⟩

def placeA : Place := ⟨some ("A"), some ("pA"), some ("addr"), [("store")]⟩

/-- A search oracle that fails at exactly one coordinate, `(-5, -5)`, and
answers every other coordinate with one well-formed result page. -/
def oneFailSearch : ℚ × ℚ → Option String → Except Unit SearchResponse :=
  fun p _ =>
    if p = ((-5 : ℚ), (-5 : ℚ)) then Except.error ()
    else Except.ok ⟨some [placeA], none⟩

def searchAtW : ℚ × ℚ → ℤ → List Business := fun _ _ => [bizA]

/-- A search oracle whose first page at every point succeeds and carries a
continuation token, and whose every continuation request fails. -/
def pageFailSearch : ℚ × ℚ → Option String → Except Unit SearchResponse :=
  fun _ tok =>
    match tok with
    | none => Except.ok ⟨some [placeA], some ("t2")⟩
    | some _ => Except.error ()

theorem flatMap_length_const {α β : Type} (xs : List α) (f : α → List β) (L : ℕ)
    (hL : ∀ i, (f i).length = L) : (xs.flatMap f).length = xs.length * L := by
  induction xs with
  | nil => simp
  | cons x xs ih =>
    rw [List.flatMap_cons, List.length_append, hL, ih, List.length_cons]
    ring

theorem flatMap_getElem_const {α β : Type} (xs : List α) (f : α → List β) (L : ℕ)
    (hL : ∀ i, (f i).length = L) (a b : ℕ) (hb : b < L) :
    (xs.flatMap f)[a * L + b]? = xs[a]?.bind (fun i => (f i)[b]?) := by
  induction xs generalizing a with
  | nil => simp
  | cons x xs ih =>
    rw [List.flatMap_cons]
    cases a with
    | zero =>
      rw [Nat.zero_mul, Nat.zero_add, List.getElem?_append, if_pos (by rw [hL]; exact hb),
        List.getElem?_cons_zero, Option.some_bind]
    | succ a =>
      rw [List.getElem?_append_right (by rw [hL, Nat.succ_mul]; omega)]
      rw [hL]
      have harith : (a + 1) * L + b - L = a * L + b := by rw [Nat.succ_mul]; omega
      rw [harith, ih a, List.getElem?_cons_succ]

theorem gridOffsets_length (np : ℕ) : (gridOffsets np).length = np + 1 := by
  unfold gridOffsets
  rw [List.length_map, List.length_range]

theorem gridOffsets_getElem (np r : ℕ) (hr : r < np + 1) :
    (gridOffsets np)[r]? = some ((r : ℤ) - ((np + 1) / 2 : ℕ)) := by
  unfold gridOffsets
  rw [List.getElem?_map, List.getElem?_range hr]
  rfl

/-- C7: for every center, every radius (0 included) and every even positive
density, the sampler produces `(density+1)^2` points, enumerated as the full
row-major Cartesian product of the row and column offsets, and the point whose
two offsets are zero is exactly the input center. -/
theorem c7_grid_points_enumeration (cosLat clat clng radius : ℚ) (d : ℕ) (hpos : 0 < d) (hev : d % 2 = 0) :
    (get_grid_points cosLat clat clng radius d).length = (d + 1) ^ 2
    ∧ (∀ r c : ℕ, r ≤ d → c ≤ d →
        (get_grid_points cosLat clat clng radius d)[r * (d + 1) + c]? =
          some (clat + ((((r : ℤ) - (d / 2 : ℕ) : ℤ) : ℚ) * (radius / ((d / 2 : ℕ) : ℚ))) / 111320,
                clng + ((((c : ℤ) - (d / 2 : ℕ) : ℤ) : ℚ) * (radius / ((d / 2 : ℕ) : ℚ))) / (111320 * cosLat)))
    ∧ (get_grid_points cosLat clat clng radius d)[(d / 2) * (d + 1) + d / 2]? = some (clat, clng) := by
  have hhalf : (d + 1) / 2 = d / 2 := by omega
  have hmaplen : ∀ i : ℤ, ((gridOffsets d).map (fun (j : ℤ) =>
      (clat + ((i : ℚ) * (radius / ((d / 2 : ℕ) : ℚ))) / 111320,
       clng + ((j : ℚ) * (radius / ((d / 2 : ℕ) : ℚ))) / (111320 * cosLat)))).length = d + 1 := by
    intro i
    rw [List.length_map, gridOffsets_length]
  have hidx : ∀ r c : ℕ, r ≤ d → c ≤ d →
      (get_grid_points cosLat clat clng radius d)[r * (d + 1) + c]? =
        some (clat + ((((r : ℤ) - (d / 2 : ℕ) : ℤ) : ℚ) * (radius / ((d / 2 : ℕ) : ℚ))) / 111320,
              clng + ((((c : ℤ) - (d / 2 : ℕ) : ℤ) : ℚ) * (radius / ((d / 2 : ℕ) : ℚ))) / (111320 * cosLat)) := by
    intro r c hr hc
    show ((gridOffsets d).flatMap _)[r * (d + 1) + c]? = _
    rw [flatMap_getElem_const _ _ (d + 1) hmaplen r c (by omega)]
    rw [gridOffsets_getElem d r (by omega)]
    rw [Option.some_bind]
    rw [List.getElem?_map, gridOffsets_getElem d c (by omega)]
    rw [hhalf]
    rfl
  refine ⟨?_, hidx, ?_⟩
  · show ((gridOffsets d).flatMap _).length = _
    rw [flatMap_length_const _ _ (d + 1) hmaplen, gridOffsets_length]
    ring
  · rw [hidx (d / 2) (d / 2) (by omega) (by omega)]
    rw [sub_self]
    push_cast
    rw [zero_mul, zero_div, add_zero, zero_div, add_zero]

theorem filterGo_nil (fetch : Option String → Detail) (prev : List (Option String))
    (n : ℕ) (res : List Record) (tr : List Business) :
    filterGo fetch prev n [] res tr = (res, tr) := rfl

theorem filterGo_cons_skip (fetch : Option String → Detail) (prev : List (Option String))
    (n : ℕ) (b : Business) (rest : List Business) (res : List Record) (tr : List Business)
    (hm : b.name ∈ prev) :
    filterGo fetch prev n (b :: rest) res tr = filterGo fetch prev n rest res tr := by
  rw [filterGo, if_pos hm]

theorem filterGo_cons_eligible (fetch : Option String → Detail) (prev : List (Option String))
    (n : ℕ) (b : Business) (rest : List Business) (res : List Record) (tr : List Business)
    (hm : b.name ∉ prev) :
    filterGo fetch prev n (b :: rest) res tr =
      (if n ≤ (if qualifies fetch b then res ++ [recordOf fetch b] else res).length then
        ((if qualifies fetch b then res ++ [recordOf fetch b] else res), tr ++ [b])
      else filterGo fetch prev n rest
        (if qualifies fetch b then res ++ [recordOf fetch b] else res) (tr ++ [b])) := by
  rw [filterGo, if_neg hm]
  rfl

theorem filterGo_results_eq (fetch : Option String → Detail) (prev : List (Option String))
    (n : ℕ) : ∀ (bs : List Business) (res : List Record) (tr : List Business),
    res = (tr.filter (qualifies fetch)).map (recordOf fetch) →
    (filterGo fetch prev n bs res tr).1 =
      (((filterGo fetch prev n bs res tr).2).filter (qualifies fetch)).map (recordOf fetch) := by
  intro bs
  induction bs with
  | nil => intro res tr h; simpa [filterGo_nil] using h
  | cons b rest ih =>
    intro res tr h
    by_cases hm : b.name ∈ prev
    · rw [filterGo_cons_skip fetch prev n b rest res tr hm]
      exact ih res tr h
    · rw [filterGo_cons_eligible fetch prev n b rest res tr hm]
      have h2 : (if qualifies fetch b then res ++ [recordOf fetch b] else res) =
          ((tr ++ [b]).filter (qualifies fetch)).map (recordOf fetch) := by
        rw [List.filter_append, List.map_append, ← h]
        cases hq : qualifies fetch b
        · simp [List.filter_cons, hq]
        · simp [List.filter_cons, hq]
      by_cases hlen : n ≤ (if qualifies fetch b then res ++ [recordOf fetch b] else res).length
      · rw [if_pos hlen]
        exact h2
      · rw [if_neg hlen]
        exact ih _ _ h2

theorem notSeen_true (prev : List (Option String)) (b : Business) (hm : b.name ∉ prev) :
    notSeen prev b = true := by
  simp [notSeen, hm]

theorem notSeen_false (prev : List (Option String)) (b : Business) (hm : b.name ∈ prev) :
    notSeen prev b = false := by
  simp [notSeen, hm]

theorem filterGo_trace_take (fetch : Option String → Detail) (prev : List (Option String))
    (n : ℕ) : ∀ (bs : List Business) (res : List Record) (tr : List Business),
    ∃ m : ℕ, (filterGo fetch prev n bs res tr).2 =
      tr ++ (bs.filter (notSeen prev)).take m := by
  intro bs
  induction bs with
  | nil => intro res tr; exact ⟨0, by simp [filterGo_nil]⟩
  | cons b rest ih =>
    intro res tr
    by_cases hm : b.name ∈ prev
    · rw [filterGo_cons_skip fetch prev n b rest res tr hm]
      obtain ⟨m, hmn⟩ := ih res tr
      refine ⟨m, ?_⟩
      rw [hmn, List.filter_cons, notSeen_false prev b hm]
      simp
    · rw [filterGo_cons_eligible fetch prev n b rest res tr hm]
      by_cases hlen : n ≤ (if qualifies fetch b then res ++ [recordOf fetch b] else res).length
      · rw [if_pos hlen]
        refine ⟨1, ?_⟩
        rw [List.filter_cons, notSeen_true prev b hm]
        simp
      · rw [if_neg hlen]
        obtain ⟨m, hmn⟩ := ih (if qualifies fetch b then res ++ [recordOf fetch b] else res) (tr ++ [b])
        refine ⟨m + 1, ?_⟩
        rw [hmn, List.filter_cons, notSeen_true prev b hm]
        simp only [if_true, List.take_succ_cons, List.append_assoc, List.singleton_append]

theorem filterGo_length_le (fetch : Option String → Detail) (prev : List (Option String))
    (n : ℕ) : ∀ (bs : List Business) (res : List Record) (tr : List Business),
    res.length < n → (filterGo fetch prev n bs res tr).1.length ≤ n := by
  intro bs
  induction bs with
  | nil => intro res tr h; rw [filterGo_nil]; exact le_of_lt h
  | cons b rest ih =>
    intro res tr h
    by_cases hm : b.name ∈ prev
    · rw [filterGo_cons_skip fetch prev n b rest res tr hm]
      exact ih res tr h
    · rw [filterGo_cons_eligible fetch prev n b rest res tr hm]
      have hlen2 : (if qualifies fetch b then res ++ [recordOf fetch b] else res).length ≤
          res.length + 1 := by
        cases hq : qualifies fetch b <;> simp
      by_cases hlen : n ≤ (if qualifies fetch b then res ++ [recordOf fetch b] else res).length
      · rw [if_pos hlen]
        show (if qualifies fetch b then res ++ [recordOf fetch b] else res).length ≤ n
        omega
      · rw [if_neg hlen]
        exact ih _ _ (by omega)

theorem filterGo_reach (fetch : Option String → Detail) (prev : List (Option String))
    (n : ℕ) : ∀ (bs : List Business) (res : List Record) (tr : List Business),
    res.length < n →
    res.length = tr.countP (qualifies fetch) →
    n - res.length ≤ ((bs.filter (notSeen prev)).countP (qualifies fetch)) →
    (filterGo fetch prev n bs res tr).1.length = n
    ∧ (filterGo fetch prev n bs res tr).2.countP (qualifies fetch) =
        tr.countP (qualifies fetch) + (n - res.length)
    ∧ ((filterGo fetch prev n bs res tr).2.getLast?.map (qualifies fetch)) = some true := by
  intro bs
  induction bs with
  | nil =>
    intro res tr h1 h2 h3
    simp at h3
    omega
  | cons b rest ih =>
    intro res tr h1 h2 h3
    by_cases hm : b.name ∈ prev
    · rw [filterGo_cons_skip fetch prev n b rest res tr hm]
      refine ih res tr h1 h2 ?_
      rwa [List.filter_cons, notSeen_false prev b hm, if_neg (by simp)] at h3
    · rw [filterGo_cons_eligible fetch prev n b rest res tr hm]
      rw [List.filter_cons, notSeen_true prev b hm, if_pos rfl] at h3
      cases hq : qualifies fetch b with
      | true =>
        simp only [hq, if_true]
        rw [List.countP_cons_of_pos _ _ hq] at h3
        by_cases hlen : n ≤ (res ++ [recordOf fetch b]).length
        · rw [if_pos hlen]
          simp only [List.length_append, List.length_cons, List.length_nil] at hlen
          refine ⟨?_, ?_, ?_⟩
          · show (res ++ [recordOf fetch b]).length = n
            simp only [List.length_append, List.length_cons, List.length_nil]
            omega
          · show (tr ++ [b]).countP (qualifies fetch) = _
            rw [List.countP_append]
            simp [List.countP_cons, hq]
            omega
          · show ((tr ++ [b]).getLast?.map (qualifies fetch)) = some true
            rw [List.getLast?_append]
            simp [hq]
        · rw [if_neg hlen]
          simp only [List.length_append, List.length_cons, List.length_nil] at hlen
          have ih2 := ih (res ++ [recordOf fetch b]) (tr ++ [b])
            (by simp only [List.length_append, List.length_cons, List.length_nil]; omega)
            (by simp [List.countP_append, List.countP_cons, hq]; omega)
            (by simp only [List.length_append, List.length_cons, List.length_nil]; omega)
          refine ⟨ih2.1, ?_, ih2.2.2⟩
          rw [ih2.2.1, List.countP_append]
          have hL : (res ++ [recordOf fetch b]).length = res.length + 1 := by simp
          have hC : List.countP (qualifies fetch) [b] = 1 := by simp [List.countP_cons, hq]
          rw [hL, hC]
          omega
      | false =>
        simp only [hq, Bool.false_eq_true, if_false]
        rw [List.countP_cons_of_neg _ _ (by simp [hq])] at h3
        by_cases hlen : n ≤ res.length
        · omega
        · rw [if_neg hlen]
          have ih2 := ih res (tr ++ [b]) h1
            (by rw [List.countP_append]; simp [List.countP_cons, hq, h2]) h3
          refine ⟨ih2.1, ?_, ih2.2.2⟩
          rw [ih2.2.1, List.countP_append]
          simp [List.countP_cons, hq]

theorem filterGo_names (fetch : Option String → Detail) (prev : List (Option String))
    (n : ℕ) : ∀ (bs : List Business) (res : List Record) (tr : List Business),
    (∀ r ∈ res, r.Name ∉ prev) →
    ∀ r ∈ (filterGo fetch prev n bs res tr).1, r.Name ∉ prev := by
  intro bs
  induction bs with
  | nil => intro res tr h; rw [filterGo_nil]; exact h
  | cons b rest ih =>
    intro res tr h
    by_cases hm : b.name ∈ prev
    · rw [filterGo_cons_skip fetch prev n b rest res tr hm]
      exact ih res tr h
    · rw [filterGo_cons_eligible fetch prev n b rest res tr hm]
      have h2 : ∀ r ∈ (if qualifies fetch b then res ++ [recordOf fetch b] else res),
          r.Name ∉ prev := by
        cases hq : qualifies fetch b
        · simpa [hq] using h
        · simp only [hq, if_true]
          intro r hr
          rw [List.mem_append] at hr
          rcases hr with hr | hr
          · exact h r hr
          · rw [List.mem_singleton] at hr
            subst hr
            exact hm
      by_cases hlen : n ≤ (if qualifies fetch b then res ++ [recordOf fetch b] else res).length
      · rw [if_pos hlen]
        exact h2
      · rw [if_neg hlen]
        exact ih _ _ h2

theorem pyDictInsert_keys (d : List (Option String × Business)) (k : Option String)
    (v : Business) :
    (pyDictInsert d k v).map (fun p => p.1) =
      if d.any (fun p => decide (p.1 = k)) then d.map (fun p => p.1)
      else d.map (fun p => p.1) ++ [k] := by
  unfold pyDictInsert
  by_cases h : d.any (fun p => decide (p.1 = k)) = true
  · rw [if_pos h, if_pos h, List.map_map]
    refine List.map_congr_left ?_
    intro p _
    by_cases hp : p.1 = k
    · simp [hp]
    · simp [hp]
  · rw [if_neg h, if_neg h, List.map_append]
    rfl

theorem pyDictInsert_keys_nodup (d : List (Option String × Business)) (k : Option String)
    (v : Business) (h : (d.map (fun p => p.1)).Nodup) :
    ((pyDictInsert d k v).map (fun p => p.1)).Nodup := by
  rw [pyDictInsert_keys]
  by_cases hany : d.any (fun p => decide (p.1 = k)) = true
  · rwa [if_pos hany]
  · rw [if_neg hany, List.nodup_append]
    refine ⟨h, List.nodup_singleton k, ?_⟩
    intro x hx hk
    rw [List.mem_singleton] at hk
    subst hk
    rw [List.mem_map] at hx
    obtain ⟨p, hp, hpk⟩ := hx
    rw [List.any_eq_true] at hany
    exact hany ⟨p, hp, by simp [hpk]⟩

theorem pyDictInsert_coherent (d : List (Option String × Business)) (v : Business)
    (h : ∀ p ∈ d, p.2.place_id = p.1) :
    ∀ p ∈ pyDictInsert d v.place_id v, p.2.place_id = p.1 := by
  unfold pyDictInsert
  by_cases hany : d.any (fun p => decide (p.1 = v.place_id)) = true
  · rw [if_pos hany]
    intro p hp
    rw [List.mem_map] at hp
    obtain ⟨q, hq, hqp⟩ := hp
    by_cases hqk : q.1 = v.place_id
    · rw [if_pos hqk] at hqp
      subst hqp
      rfl
    · rw [if_neg hqk] at hqp
      subst hqp
      exact h q hq
  · rw [if_neg hany]
    intro p hp
    rw [List.mem_append] at hp
    rcases hp with hp | hp
    · exact h p hp
    · rw [List.mem_singleton] at hp
      subst hp
      rfl

theorem pyLookup_insert_self (d : List (Option String × Business)) (k : Option String)
    (v : Business) : pyLookup (pyDictInsert d k v) k = some v := by
  unfold pyDictInsert pyLookup
  by_cases hany : d.any (fun p => decide (p.1 = k)) = true
  · rw [if_pos hany]
    induction d with
    | nil => simp at hany
    | cons q d ih =>
      by_cases hq : q.1 = k
      · simp [List.find?_cons, hq]
      · rw [List.map_cons, if_neg hq, List.find?_cons_of_neg _ (by simp [hq])]
        rw [List.any_cons] at hany
        simp only [hq, decide_False, Bool.false_or] at hany
        exact ih hany
  · rw [if_neg hany, List.find?_append]
    have hnone : d.find? (fun p => decide (p.1 = k)) = none := by
      rw [List.find?_eq_none]
      intro p hp
      rw [List.any_eq_true] at hany
      intro hpk
      exact hany ⟨p, hp, hpk⟩
    rw [hnone]
    simp [List.find?_cons]

theorem pyLookup_insert_other (d : List (Option String × Business)) (k k2 : Option String)
    (v : Business) (hne : k2 ≠ k) :
    pyLookup (pyDictInsert d k v) k2 = pyLookup d k2 := by
  unfold pyDictInsert pyLookup
  by_cases hany : d.any (fun p => decide (p.1 = k)) = true
  · rw [if_pos hany]
    clear hany
    induction d with
    | nil => simp
    | cons q d ih =>
      rw [List.map_cons]
      by_cases hq : q.1 = k
      · rw [if_pos hq, List.find?_cons_of_neg _ (by simp [Ne.symm hne]),
          List.find?_cons_of_neg _ (by simp [hq, Ne.symm hne])]
        exact ih
      · rw [if_neg hq]
        by_cases hq2 : q.1 = k2
        · rw [List.find?_cons_of_pos _ (by simp [hq2]), List.find?_cons_of_pos _ (by simp [hq2])]
        · rw [List.find?_cons_of_neg _ (by simp [hq2]), List.find?_cons_of_neg _ (by simp [hq2])]
          exact ih
  · rw [if_neg hany, List.find?_append]
    have hlast : List.find? (fun p => decide (p.1 = k2)) [(k, v)] = none := by
      simp [List.find?_cons, Ne.symm hne]
    rw [hlast]
    simp

theorem pyDictOf_eq_fold (l : List Business) : pyDictOf l = pyDictFold [] l := rfl

theorem pyDictFold_lookup (k : Option String) :
    ∀ (l : List Business) (d : List (Option String × Business)),
    pyLookup (pyDictFold d l) k =
      ((l.filter (fun b => decide (b.place_id = k))).getLast?).or (pyLookup d k) := by
  intro l
  induction l with
  | nil => intro d; simp [pyDictFold]
  | cons b l ih =>
    intro d
    have hstep : pyDictFold d (b :: l) = pyDictFold (pyDictInsert d b.place_id b) l := rfl
    rw [hstep, ih, List.filter_cons]
    by_cases hb : b.place_id = k
    · rw [if_pos (by simp [hb]), ← List.singleton_append, List.getLast?_append]
      cases hl : (l.filter (fun b => decide (b.place_id = k))).getLast? with
      | none =>
        subst hb
        simp [pyLookup_insert_self]
      | some x => rfl
    · rw [if_neg (by simp [hb])]
      rw [pyLookup_insert_other d b.place_id k b (fun h => hb h.symm)]

theorem pyDictFold_keys_nodup :
    ∀ (l : List Business) (d : List (Option String × Business)),
    (d.map (fun p => p.1)).Nodup → ((pyDictFold d l).map (fun p => p.1)).Nodup := by
  intro l
  induction l with
  | nil => intro d h; exact h
  | cons b l ih =>
    intro d h
    exact ih (pyDictInsert d b.place_id b) (pyDictInsert_keys_nodup d b.place_id b h)

theorem pyDictFold_coherent :
    ∀ (l : List Business) (d : List (Option String × Business)),
    (∀ p ∈ d, p.2.place_id = p.1) → ∀ p ∈ pyDictFold d l, p.2.place_id = p.1 := by
  intro l
  induction l with
  | nil => intro d h; exact h
  | cons b l ih =>
    intro d h
    exact ih (pyDictInsert d b.place_id b) (pyDictInsert_coherent d b h)

theorem pyDictFold_keys_mem (k : Option String) :
    ∀ (l : List Business) (d : List (Option String × Business)),
    (k ∈ (pyDictFold d l).map (fun p => p.1) ↔
      k ∈ d.map (fun p => p.1) ∨ k ∈ l.map (fun b => b.place_id)) := by
  intro l
  induction l with
  | nil => intro d; simp [pyDictFold]
  | cons b l ih =>
    intro d
    have hstep : pyDictFold d (b :: l) = pyDictFold (pyDictInsert d b.place_id b) l := rfl
    rw [hstep, ih, pyDictInsert_keys]
    by_cases hany : d.any (fun p => decide (p.1 = b.place_id)) = true
    · rw [if_pos hany]
      rw [List.any_eq_true] at hany
      obtain ⟨p, hp, hpk⟩ := hany
      simp only [decide_eq_true_eq] at hpk
      constructor
      · rintro (h | h)
        · exact Or.inl h
        · exact Or.inr (by simp [List.mem_map]; right; rw [List.mem_map] at h; exact h)
      · rintro (h | h)
        · exact Or.inl h
        · rw [List.map_cons, List.mem_cons] at h
          rcases h with h | h
          · subst h
            exact Or.inl (by rw [List.mem_map]; exact ⟨p, hp, hpk⟩)
          · exact Or.inr h
    · rw [if_neg hany]
      rw [List.mem_append, List.mem_singleton, List.map_cons, List.mem_cons]
      tauto

theorem unique_keys_eq (l : List Business) :
    (uniqueBusinesses l).map (fun b => b.place_id) = (pyDictOf l).map (fun p => p.1) := by
  unfold uniqueBusinesses
  rw [List.map_map]
  refine List.map_congr_left ?_
  intro p hp
  exact pyDictFold_coherent l [] (by simp) p hp

theorem countP_eq_of_nodup_map {α β : Type} [DecidableEq β] (f : α → β) (pid : β) :
    ∀ (u : List α), ((u.map f).Nodup) →
    u.countP (fun x => decide (f x = pid)) =
      if u.any (fun x => decide (f x = pid)) then 1 else 0 := by
  intro u
  induction u with
  | nil => intro h; simp
  | cons x u ih =>
    intro h
    rw [List.map_cons, List.nodup_cons] at h
    rw [List.countP_cons, List.any_cons]
    by_cases hx : f x = pid
    · have hnot : pid ∈ List.map f u → False := by
        intro hmem
        rw [hx] at h
        exact h.1 hmem
      have hz : u.countP (fun y => decide (f y = pid)) = 0 := by
        rw [List.countP_eq_zero]
        intro y hy
        simp only [decide_eq_true_eq]
        intro hyp
        exact hnot (by rw [List.mem_map]; exact ⟨y, hy, hyp⟩)
      have hanyf : u.any (fun y => decide (f y = pid)) = false := by
        rw [List.any_eq_false]
        intro y hy
        simp only [decide_eq_true_eq]
        intro hyp
        exact hnot (by rw [List.mem_map]; exact ⟨y, hy, hyp⟩)
      rw [hz, hanyf, hx]
      simp
    · rw [ih h.2]
      simp [hx]

theorem gridSearch_ok_shape (search : ℚ × ℚ → Option String → Except Unit SearchResponse)
    (cosLat clat clng radius : ℚ) (fuel : ℕ) (out : List Business)
    (h : get_businesses_grid_search search cosLat clat clng radius fuel = Except.ok out) :
    ∃ raw : List Business, out = uniqueBusinesses raw := by
  unfold get_businesses_grid_search at h
  cases hs : searchPoints search fuel (get_grid_points cosLat clat clng radius 10) [] with
  | error e => rw [hs] at h; cases h
  | ok businesses =>
    rw [hs] at h
    refine ⟨businesses, ?_⟩
    injection h with h2
    exact h2.symm

theorem searchPoints_cons (search : ℚ × ℚ → Option String → Except Unit SearchResponse)
    (fuel : ℕ) (pt : ℚ × ℚ) (rest : List (ℚ × ℚ)) (businesses : List Business) :
    searchPoints search fuel (pt :: rest) businesses =
      match fetchPoint search pt fuel none businesses with
      | Except.error e => Except.error e
      | Except.ok businesses2 => searchPoints search fuel rest businesses2 := rfl

theorem searchPoints_append (search : ℚ × ℚ → Option String → Except Unit SearchResponse)
    (fuel : ℕ) : ∀ (pts1 pts2 : List (ℚ × ℚ)) (businesses : List Business),
    searchPoints search fuel (pts1 ++ pts2) businesses =
      match searchPoints search fuel pts1 businesses with
      | Except.error e => Except.error e
      | Except.ok businesses2 => searchPoints search fuel pts2 businesses2 := by
  intro pts1
  induction pts1 with
  | nil => intro pts2 businesses; rfl
  | cons pt pts1 ih =>
    intro pts2 businesses
    rw [List.cons_append, searchPoints_cons, searchPoints_cons]
    cases hf : fetchPoint search pt fuel none businesses with
    | error e => rfl
    | ok businesses2 => exact ih pts2 businesses2

theorem searchPoints_error_head (search : ℚ × ℚ → Option String → Except Unit SearchResponse)
    (f : ℕ) (p : ℚ × ℚ) (rest : List (ℚ × ℚ)) (businesses : List Business)
    (herr : search p none = Except.error ()) :
    searchPoints search (f + 1) (p :: rest) businesses = Except.error () := by
  unfold searchPoints fetchPoint
  rw [herr]

theorem gridSearch_error_of_head (search : ℚ × ℚ → Option String → Except Unit SearchResponse)
    (cosLat clat clng radius : ℚ) (fuel : ℕ) (p : ℚ × ℚ) (hf : 1 ≤ fuel)
    (hhead : (get_grid_points cosLat clat clng radius 10).head? = some p)
    (herr : search p none = Except.error ()) :
    get_businesses_grid_search search cosLat clat clng radius fuel = Except.error () := by
  unfold get_businesses_grid_search
  obtain ⟨f, rfl⟩ : ∃ f, fuel = f + 1 := ⟨fuel - 1, by omega⟩
  cases hg : get_grid_points cosLat clat clng radius 10 with
  | nil => rw [hg] at hhead; cases hhead
  | cons q rest =>
    rw [hg] at hhead
    rw [List.head?_cons] at hhead
    injection hhead with hq
    subst hq
    rw [searchPoints_error_head search f q rest [] herr]

theorem get_grid_points_head (cosLat clat clng radius : ℚ) (np : ℕ) (o : ℤ) (os : List ℤ)
    (h : gridOffsets np = o :: os) :
    (get_grid_points cosLat clat clng radius np).head? =
      some (clat + ((o : ℚ) * (radius / ((np / 2 : ℕ) : ℚ))) / 111320,
            clng + ((o : ℚ) * (radius / ((np / 2 : ℕ) : ℚ))) / (111320 * cosLat)) := by
  unfold get_grid_points
  rw [h, List.flatMap_cons, List.map_cons, List.cons_append, List.head?_cons]

theorem mainLoop_exit (searchAt : ℚ × ℚ → ℤ → List Business) (coord : ℚ × ℚ)
    (fetch : Option String → Detail) (n fuel : ℕ) (s : MainState)
    (h : n ≤ s.found.length) :
    mainLoop searchAt coord fetch n fuel s = some s := by
  cases fuel with
  | zero => rw [mainLoop, if_neg (by omega)]
  | succ f => rw [mainLoop, if_neg (by omega)]

theorem filter_businesses_length_le (bs : List Business) (fetch : Option String → Detail)
    (prev : List (Option String)) (n : ℕ) (h : 1 ≤ n) :
    (filter_businesses bs fetch prev n).1.length ≤ n :=
  filterGo_length_le fetch prev n bs [] [] (by simpa using h)

theorem mainStep_found_le (searchAt : ℚ × ℚ → ℤ → List Business) (coord : ℚ × ℚ)
    (fetch : Option String → Detail) (n : ℕ) (s : MainState)
    (h : s.found.length < n) :
    (mainStep searchAt coord fetch n s).found.length ≤ n := by
  unfold mainStep
  simp only [List.length_append]
  have h2 := filter_businesses_length_le (searchAt coord (s.radius + 500)) fetch s.prev
    (n - s.found.length) (by omega)
  omega

theorem mainLoop_final (searchAt : ℚ × ℚ → ℤ → List Business) (coord : ℚ × ℚ)
    (fetch : Option String → Detail) (n : ℕ) :
    ∀ (fuel : ℕ) (s s2 : MainState), s.found.length ≤ n →
    mainLoop searchAt coord fetch n fuel s = some s2 → s2.found.length = n := by
  intro fuel
  induction fuel with
  | zero =>
    intro s s2 hle h
    rw [mainLoop] at h
    by_cases hlt : s.found.length < n
    · rw [if_pos hlt] at h
      cases h
    · rw [if_neg hlt] at h
      injection h with h2
      subst h2
      omega
  | succ f ih =>
    intro s s2 hle h
    rw [mainLoop] at h
    by_cases hlt : s.found.length < n
    · rw [if_pos hlt] at h
      exact ih (mainStep searchAt coord fetch n s) s2
        (mainStep_found_le searchAt coord fetch n s hlt) h
    · rw [if_neg hlt] at h
      injection h with h2
      subst h2
      omega

/-- C1: merging one radius pass deduplicates by `place_id`: the merged list of
line 83 has pairwise distinct identifiers, carries exactly the identifiers of
the raw concatenated candidates, keeps for each identifier the last-seen
record, and the grid search returns exactly such a merged list. -/
theorem c1_grid_merge_dedup_last_wins :
    ∀ (l : List Business) (pid : Option String),
    ((uniqueBusinesses l).map (fun b => b.place_id)).Nodup
    ∧ (pid ∈ (uniqueBusinesses l).map (fun b => b.place_id) ↔
        pid ∈ l.map (fun b => b.place_id))
    ∧ (∀ b ∈ uniqueBusinesses l, b.place_id = pid →
        some b = (l.filter (fun b2 => decide (b2.place_id = pid))).getLast?)
    ∧ (∀ (search : ℚ × ℚ → Option String → Except Unit SearchResponse)
        (cosLat clat clng radius : ℚ) (fuel : ℕ) (out : List Business),
        get_businesses_grid_search search cosLat clat clng radius fuel = Except.ok out →
        ∃ raw : List Business, out = uniqueBusinesses raw) := by
  intro l pid
  refine ⟨?_, ?_, ?_, ?_⟩
  · rw [unique_keys_eq]
    exact pyDictFold_keys_nodup l [] (by simp)
  · rw [unique_keys_eq, pyDictOf_eq_fold, pyDictFold_keys_mem pid l []]
    simp [List.mem_map]
  · intro b hb hbp
    obtain ⟨p, hp, rfl⟩ := List.mem_map.mp hb
    have hco := pyDictFold_coherent l [] (by simp) p hp
    have hkey : p.1 = pid := by rw [← hco]; exact hbp
    have hnodup : ((pyDictOf l).map (fun q => q.1)).Nodup := pyDictFold_keys_nodup l [] (by simp)
    have hlk : pyLookup (pyDictOf l) pid = some p.2 := by
      unfold pyLookup
      cases hfs : (pyDictOf l).find? (fun q => decide (q.1 = pid)) with
      | none =>
        rw [List.find?_eq_none] at hfs
        exact absurd (by simp [hkey] : decide (p.1 = pid) = true) (hfs p hp)
      | some q =>
        have hqmem : q ∈ pyDictOf l := List.mem_of_find?_eq_some hfs
        have hqpred := List.find?_some hfs
        simp only [decide_eq_true_eq] at hqpred
        have hqp : q = p := List.inj_on_of_nodup_map hnodup hqmem hp (by rw [hqpred, hkey])
        rw [hqp]
        rfl
    rw [pyDictOf_eq_fold, pyDictFold_lookup pid l []] at hlk
    cases hgl : (l.filter (fun b2 => decide (b2.place_id = pid))).getLast? with
    | none =>
      rw [hgl] at hlk
      simp [pyLookup] at hlk
    | some x =>
      rw [hgl] at hlk
      simp only [Option.or_some] at hlk
      exact hlk.symm
  · intro search cosLat clat clng radius fuel out h
    exact gridSearch_ok_shape search cosLat clat clng radius fuel out h

/-- C1 witness: with two raw candidates sharing `place_id` "p", the merged
record for "p" is the last-seen one. -/
theorem c1_witness :
    some bizB = ([bizA, bizB].filter (fun b2 => decide (b2.place_id = some ("p")))).getLast? :=
  (c1_grid_merge_dedup_last_wins [bizA, bizB] (some ("p"))).2.2.1 bizB (by decide) rfl

/-- C2: among the candidates the filter evaluates (its detail lookups), exactly
those with a truthy phone and falsy website are emitted, in order, as the
corresponding records; a candidate whose detail is phone "555-0100" and no
website always qualifies, and a candidate whose detail has no phone never
qualifies, whatever the website. -/
theorem c2_filter_qualification_iff :
    ∀ (bs : List Business) (fetch : Option String → Detail)
      (prev : List (Option String)) (n : ℕ),
    (filter_businesses bs fetch prev n).1 =
      ((filter_businesses bs fetch prev n).2.filter (qualifies fetch)).map (recordOf fetch)
    ∧ (∀ b : Business, qualifies (fun _ => ⟨some ("555-0100"), none⟩) b = true)
    ∧ (∀ (w : Option String) (b : Business), qualifies (fun _ => ⟨none, w⟩) b = false) := by
  intro bs fetch prev n
  exact ⟨filterGo_results_eq fetch prev n bs [] [] (by simp), fun b => rfl, fun w b => rfl⟩

/-- C3: with a positive target `k` the filter returns at most `k` records; the
candidates it evaluates form an initial segment of the not-yet-seen input
candidates; and when at least `k` of those qualify it returns exactly `k`
records and its last detail lookup is the candidate that produced the `k`-th
record, so no later candidate is evaluated. -/
theorem c3_filter_early_exit :
    ∀ (bs : List Business) (fetch : Option String → Detail)
      (prev : List (Option String)) (k : ℕ), 1 ≤ k →
    (filter_businesses bs fetch prev k).1.length ≤ k
    ∧ (∃ m : ℕ, (filter_businesses bs fetch prev k).2 = (bs.filter (notSeen prev)).take m)
    ∧ (k ≤ (bs.filter (notSeen prev)).countP (qualifies fetch) →
        (filter_businesses bs fetch prev k).1.length = k
        ∧ (filter_businesses bs fetch prev k).2.countP (qualifies fetch) = k
        ∧ ((filter_businesses bs fetch prev k).2.getLast?.map (qualifies fetch)) = some true) := by
  intro bs fetch prev k hk
  refine ⟨filterGo_length_le fetch prev k bs [] [] (by simpa using hk), ?_, ?_⟩
  · obtain ⟨m, hm⟩ := filterGo_trace_take fetch prev k bs [] []
    exact ⟨m, by simpa using hm⟩
  · intro hcount
    have h := filterGo_reach fetch prev k bs [] [] (by simpa using hk) (by simp)
      (by simpa using hcount)
    exact ⟨h.1, by simpa using h.2.1, h.2.2⟩

/-- C3 witness: two qualifying candidates and target 1 produce exactly one
record, and only one detail lookup happens. -/
theorem c3_witness :
    (filter_businesses [bizA, bizB] fetchQualifying [] 1).1.length = 1
    ∧ (filter_businesses [bizA, bizB] fetchQualifying [] 1).2.countP
        (qualifies fetchQualifying) = 1 :=
  have h := (c3_filter_early_exit [bizA, bizB] fetchQualifying [] 1 (by decide)).2.2 (by decide)
  ⟨h.1, h.2.1⟩

/-- C4: a record returned by the filter never carries a name that was in the
previously-seen set when the filter ran. -/
theorem c4_seen_names_never_emitted :
    ∀ (bs : List Business) (fetch : Option String → Detail)
      (prev : List (Option String)) (n : ℕ) (r : Record),
    r ∈ (filter_businesses bs fetch prev n).1 → r.Name ∉ prev :=
  fun bs fetch prev n r hr => filterGo_names fetch prev n bs [] [] (by simp) r hr

/-- C4 witness: the record emitted for candidate "A" has a name outside the
seen set `["J"]`. -/
theorem c4_witness : (recA.Name ∉ ([some ("J")] : List (Option String))) :=
  c4_seen_names_never_emitted [bizA] fetchQualifying [some ("J")] 1 recA (by decide)

/-- C5: with target `n ≥ 1`, each pass is called with the remaining deficit and
returns at most that many records, so the accumulated count never exceeds `n`
after a loop iteration; the loop returns immediately once the count is at or
above `n`, and any normal exit from a state within the bound ends exactly at
`n`. -/
theorem c5_target_bound_and_exit :
    ∀ (searchAt : ℚ × ℚ → ℤ → List Business) (coord : ℚ × ℚ)
      (fetch : Option String → Detail) (n : ℕ), 1 ≤ n →
    (∀ s : MainState, s.found.length < n →
      (filter_businesses (searchAt coord (s.radius + 500)) fetch s.prev
          (n - s.found.length)).1.length ≤ n - s.found.length
      ∧ (mainStep searchAt coord fetch n s).found.length ≤ n)
    ∧ (∀ (fuel : ℕ) (s : MainState), n ≤ s.found.length →
        mainLoop searchAt coord fetch n fuel s = some s)
    ∧ (∀ (fuel : ℕ) (s s2 : MainState), s.found.length ≤ n →
        mainLoop searchAt coord fetch n fuel s = some s2 → s2.found.length = n) := by
  intro searchAt coord fetch n hn
  refine ⟨?_, ?_, ?_⟩
  · intro s hs
    exact ⟨filter_businesses_length_le (searchAt coord (s.radius + 500)) fetch s.prev
        (n - s.found.length) (by omega),
      mainStep_found_le searchAt coord fetch n s hs⟩
  · intro fuel s hs
    exact mainLoop_exit searchAt coord fetch n fuel s hs
  · intro fuel s s2 hs h
    exact mainLoop_final searchAt coord fetch n fuel s s2 hs h

/-- C5 witness: a run with target 1 that finds one record in the first pass
exits with exactly one accumulated record. -/
theorem c5_witness :
    (⟨[recA], [some ("A")], 500⟩ : MainState).found.length = 1 :=
  (c5_target_bound_and_exit searchAtW ((0 : ℚ), (0 : ℚ)) fetchQualifying 1 (by decide)).2.2
    1 ⟨[], [], 0⟩ ⟨[recA], [some ("A")], 500⟩ (by decide) (by decide)

/-- C6: the source splits the stored types string on a bare comma although it
was joined with comma-space, and tests membership in `unwanted_types` before
stripping, so the label "establishment" survives the cleanup: the input labels
point_of_interest, establishment, bakery are stored as "establishment, bakery",
not as "bakery". -/
theorem c6_types_filter_code_bug :
    joinCommaSpace [("point_of_interest"), ("establishment"), ("bakery")] =
      ("point_of_interest, establishment, bakery")
    ∧ filtered_types_string ("point_of_interest, establishment, bakery") =
      ("establishment, bakery")
    ∧ (filter_businesses
        [⟨some ("B"), some ("p"), some ("a"),
          joinCommaSpace [("point_of_interest"), ("establishment"), ("bakery")]⟩]
        (fun _ => ⟨some ("555-0100"), none⟩) [] 1).1.map (fun r => r.Types) =
        [("establishment, bakery")]
    ∧ ("establishment, bakery") ≠ ("bakery") := by
  exact ⟨rfl, rfl, rfl, by decide⟩

/-- C7 witness: with density 2 the middle point of the grid around center
`(3, 4)` is exactly `(3, 4)`. -/
theorem c7_witness : (get_grid_points 1 3 4 5 2)[4]? = some ((3 : ℚ), (4 : ℚ)) :=
  (c7_grid_points_enumeration 1 3 4 5 2 (by decide) (by decide)).2.2

set_option maxRecDepth 20000 in
/-- C8 counterexample: a result item lacking a `place_id` is not dropped — with
every page containing only the identifier-less item `placeNoId`, the grid
search returns a merged list containing a candidate built from that item. -/
theorem c8_counterexample_missing_id_kept :
    get_businesses_grid_search missingIdSearch 1 0 0 0 1 =
      Except.ok [⟨some ("X"), none, some ("A St"), ("a")⟩]
    ∧ placeNoId.place_id = none := ⟨rfl, rfl⟩

/-- C8 amended: result items lacking a non-empty `place_id` are retained, not
dropped: every item of a page is mapped verbatim into the candidate list, and
in the merged result all identifier-less items collapse into exactly one
candidate keyed by the absent identifier. -/
theorem c8_amended_missing_id_collapse :
    ∀ (search : ℚ × ℚ → Option String → Except Unit SearchResponse) (pt : ℚ × ℚ)
      (fuel : ℕ) (tok : Option String) (acc : List Business) (resp : SearchResponse),
    search pt tok = Except.ok resp → resp.next_page_token = none →
    fetchPoint search pt (fuel + 1) tok acc =
      Except.ok (acc ++ (resp.results.getD []).map placeToBusiness)
    ∧ ∀ (bs : List Business),
      (uniqueBusinesses bs).countP (fun b => decide (b.place_id = none)) =
        if bs.any (fun b => decide (b.place_id = none)) then 1 else 0 := by
  intro search pt fuel tok acc resp hok htok
  obtain ⟨results0, tok0⟩ := resp
  have htok2 : tok0 = none := htok
  subst htok2
  constructor
  · unfold fetchPoint
    rw [hok]
    rfl
  · intro bs
    have hnodup : ((uniqueBusinesses bs).map (fun b => b.place_id)).Nodup := by
      rw [unique_keys_eq]
      exact pyDictFold_keys_nodup bs [] (by simp)
    refine (countP_eq_of_nodup_map (fun b => b.place_id) none (uniqueBusinesses bs)
      hnodup).trans ?_
    refine if_congr ?_ rfl rfl
    have hkeys : none ∈ (uniqueBusinesses bs).map (fun b => b.place_id) ↔
        none ∈ bs.map (fun b => b.place_id) := by
      rw [unique_keys_eq, pyDictOf_eq_fold, pyDictFold_keys_mem none bs []]
      simp
    simp only [List.any_eq_true, decide_eq_true_eq]
    simpa [List.mem_map] using hkeys

/-- C8 amended witness: one page whose only item lacks an identifier yields
exactly that item as a candidate. -/
theorem c8_amended_witness :
    fetchPoint missingIdSearch ((0 : ℚ), (0 : ℚ)) 1 none [] =
      Except.ok [placeToBusiness placeNoId] :=
  (c8_amended_missing_id_collapse missingIdSearch ((0 : ℚ), (0 : ℚ)) 0 none []
    ⟨some [placeNoId], none⟩ rfl rfl).1

/-- C9 counterexample: a transport failure at a single grid point (the first
point `(-5, -5)` of the radius-556600 pass around the origin; every other
point answers with a well-formed page) does not leave the pass completing with
the merged candidates of the other points: the whole grid search aborts with the
error. -/
theorem c9_counterexample_error_aborts_pass :
    get_businesses_grid_search oneFailSearch 1 0 0 556600 1 = Except.error ()
    ∧ oneFailSearch ((-5 : ℚ), (-5 : ℚ)) none = Except.error ()
    ∧ oneFailSearch ((0 : ℚ), (0 : ℚ)) none = Except.ok ⟨some [placeA], none⟩ := by
  have hhead : (get_grid_points 1 0 0 556600 10).head? = some ((-5 : ℚ), (-5 : ℚ)) := by
    rw [get_grid_points_head 1 0 0 556600 10 (-5) [-4, -3, -2, -1, 0, 1, 2, 3, 4, 5]
      (by decide)]
    norm_num
  refine ⟨?_, by simp [oneFailSearch], ?_⟩
  · exact gridSearch_error_of_head oneFailSearch 1 0 0 556600 1 ((-5 : ℚ), (-5 : ℚ))
      (by decide) hhead (by simp [oneFailSearch])
  · unfold oneFailSearch
    rw [if_neg (by simp [Prod.ext_iff])]

/-- C9 amended: a transport or malformed-response failure of the place-search
request at any one grid point — on its first page or on any continuation
page — aborts the whole radius pass: once the failing request runs, the error
propagates out of the grid search and no merged candidate list is returned,
losing the contributions of all the other grid points. -/
theorem c9_amended_error_aborts_pass :
    (∀ (search : ℚ × ℚ → Option String → Except Unit SearchResponse)
      (cosLat clat clng radius : ℚ) (fuel : ℕ) (pre post : List (ℚ × ℚ))
      (p : ℚ × ℚ) (acc : List Business),
      get_grid_points cosLat clat clng radius 10 = pre ++ p :: post →
      searchPoints search fuel pre [] = Except.ok acc →
      fetchPoint search p fuel none acc = Except.error () →
      get_businesses_grid_search search cosLat clat clng radius fuel = Except.error ())
    ∧ (∀ (search : ℚ × ℚ → Option String → Except Unit SearchResponse)
      (p : ℚ × ℚ) (fuel : ℕ) (tok : Option String) (acc : List Business),
      search p tok = Except.error () →
      fetchPoint search p (fuel + 1) tok acc = Except.error ())
    ∧ (∀ (search : ℚ × ℚ → Option String → Except Unit SearchResponse)
      (p : ℚ × ℚ) (fuel : ℕ) (tok : Option String) (acc : List Business)
      (data : SearchResponse),
      search p tok = Except.ok data →
      truthyStr data.next_page_token = true →
      fetchPoint search p fuel data.next_page_token
        (acc ++ (data.results.getD []).map placeToBusiness) = Except.error () →
      fetchPoint search p (fuel + 1) tok acc = Except.error ()) := by
  refine ⟨?_, ?_, ?_⟩
  · intro search cosLat clat clng radius fuel pre post p acc hgrid hpre hfp
    unfold get_businesses_grid_search
    rw [hgrid, searchPoints_append, hpre]
    show (match searchPoints search fuel (p :: post) acc with
      | Except.error e => Except.error e
      | Except.ok businesses => Except.ok (uniqueBusinesses businesses)) = Except.error ()
    rw [searchPoints_cons, hfp]
  · intro search p fuel tok acc herr
    unfold fetchPoint
    rw [herr]
  · intro search p fuel tok acc data hok htr hcont
    unfold fetchPoint
    rw [hok]
    show (if truthyStr data.next_page_token = true then
        fetchPoint search p fuel data.next_page_token
          (acc ++ (data.results.getD []).map placeToBusiness)
      else Except.ok (acc ++ (data.results.getD []).map placeToBusiness)) = Except.error ()
    rw [if_pos htr]
    exact hcont

/-- C9 amended witness: an oracle whose continuation request fails makes the
whole pass abort on the second page of the first grid point. -/
theorem c9_amended_witness :
    get_businesses_grid_search pageFailSearch 1 0 0 0 2 = Except.error () :=
  c9_amended_error_aborts_pass.1 pageFailSearch 1 0 0 0 2 []
    ((get_grid_points 1 0 0 0 10).tail)
    ((get_grid_points 1 0 0 0 10).head (by decide)) []
    (by rw [List.nil_append]; exact (List.head_cons_tail _ (by decide)).symm) rfl rfl

/-- C10: a geocoding result whose latitude or longitude is exactly 0.0 is
treated like the location-not-found case: the run performs no search and
writes no output, because line 141 tests the truthiness of the coordinates. -/
theorem c10_zero_coordinate_no_output :
    ∀ (x y : ℚ) (searchAt : ℚ × ℚ → ℤ → List Business) (fetch : Option String → Detail)
      (prev : List (Option String)) (n : ℕ) (minRadius : ℤ) (fuel : ℕ),
    main_run [⟨⟨0, y⟩⟩] searchAt fetch prev n minRadius fuel = none
    ∧ main_run [⟨⟨x, 0⟩⟩] searchAt fetch prev n minRadius fuel = none
    ∧ main_run [] searchAt fetch prev n minRadius fuel = none := by
  intro x y searchAt fetch prev n minRadius fuel
  have h0 : truthyNum (some 0) = false := rfl
  refine ⟨?_, ?_, rfl⟩
  · show main_run [⟨⟨0, y⟩⟩] searchAt fetch prev n minRadius fuel = none
    unfold main_run
    simp [get_lat_lng, h0]
  · unfold main_run
    simp [get_lat_lng, h0]
